import Mathlib

set_option maxRecDepth 8000
set_option maxHeartbeats 1000000

/-!
Verification of the statechart core of this repository against its specification.

The repository ships only the test suite for the core (src/test/state.test.ts) and a
small chart example (src/bug/bug.ts); the engine itself (Machine, State, transition,
spawn) is not part of the sources.  Following the specification, the engine is
therefore modelled here from the spec (sections 3, 4.3 and 6), and the charts that
the tests build are embedded literally so that every claim can be evaluated on them.
-/

/-- Modelled from the spec: the caller-facing event payload, section 6.  The code
for the Event shape is missing from src; a string shorthand stands for a record
with only a type field, and extra payload entries are kept as string pairs. -/
structure EventData where
  type : String
  payload : List (String × String) := []
deriving Repr, DecidableEq

/-- Modelled from the spec: the synthetic initial event, named xstate.init. -/
def initEvent : EventData := { type := "xstate.init" }

/-- Modelled from the spec: the SCXML event type field, section 6. -/
inductive EventKind where
  | external
  | internal
  | platform
deriving Repr, DecidableEq

/-- Modelled from the spec: the SCXMLEvent envelope of section 6, carrying routing
metadata alongside the user event. -/
structure SCXMLEvent where
  name : String
  kind : EventKind
  sendid : Option String := none
  data : EventData
deriving Repr, DecidableEq

/-- Modelled from the spec: toSCXMLEvent wraps an event into its envelope; the
synthetic initial event gets the platform kind, every other event the external
kind. -/
def toSCXMLEvent (d : EventData) (sendid : Option String) : SCXMLEvent :=
  { name := d.type
    kind := if d.type == initEvent.type then EventKind.platform else EventKind.external
    sendid := sendid
    data := d }

/-- Modelled from the spec: a caller event object, optionally carrying a pre-built
envelope in its scxml field (the field is written with two leading underscores in
the source language). -/
structure XEvent where
  data : EventData
  scxml : Option SCXMLEvent := none
deriving Repr, DecidableEq

/-- Modelled from the spec: an argument of transition is either a raw string or an
event object. -/
inductive MEvent where
  | str (s : String)
  | obj (e : XEvent)
deriving Repr, DecidableEq

/-- Modelled from the spec: wrapping a string shorthand into an event object. -/
def MEvent.toXEvent : MEvent → XEvent
  | MEvent.str s => { data := { type := s }, scxml := none }
  | MEvent.obj e => e

/-- Modelled from the spec, section 4.3 step 1: normalize the event into an
SCXMLEvent; a caller-supplied envelope takes precedence. -/
def normalizeEvent (e : XEvent) : SCXMLEvent :=
  match e.scxml with
  | some sc => sc
  | none => toSCXMLEvent e.data none

/-- Modelled from the spec, section 3: a StateValue is either an atomic leaf name
or a map from region name to StateValue.  An empty map stands for an atomic region
inside a parallel state. -/
inductive StateValue where
  | leaf (k : String)
  | node (entries : List (String × StateValue))

/-- Modelled from the spec: a resolved action is either an assign (a pure context
update) or an opaque named action left for the action evaluator. -/
inductive XAction (C : Type) where
  | assignA (f : C → EventData → C)
  | actA (name : String)

/-- Modelled from the spec, section 3: a transition record owned by a source node.
Targets are kept as the selector strings of the chart DSL, the guard is a pure
function of context and event, and the internal flag is optional with the default
computed from the targets. -/
structure TransitionDef (C : Type) where
  target : List String := []
  cond : C → EventData → Bool := fun _ _ => true
  internal : Option Bool := none
  actions : List (XAction C) := []

/-- Modelled from the spec, section 3: node kinds of the chart tree. -/
inductive NodeType where
  | atomic
  | compound
  | parallel
  | final
deriving Repr, DecidableEq

/-- Modelled from the spec, section 3: a chart node with its key, kind, initial
child key, ordered children, ordered on-map (an event bound to none is a forbidden
event, written as undefined in the source DSL), and entry and exit action lists. -/
inductive ChartNode (C : Type) : Type where
  | mk (key : String) (ntype : NodeType) (initialKey : String)
      (states : List (ChartNode C))
      (onMap : List (String × Option (List (TransitionDef C))))
      (onEntry : List (XAction C)) (onExit : List (XAction C))

variable {C : Type}

def ChartNode.key : ChartNode C → String
  | ChartNode.mk k _ _ _ _ _ _ => k

def ChartNode.ntype : ChartNode C → NodeType
  | ChartNode.mk _ t _ _ _ _ _ => t

def ChartNode.initialKey : ChartNode C → String
  | ChartNode.mk _ _ i _ _ _ _ => i

def ChartNode.states : ChartNode C → List (ChartNode C)
  | ChartNode.mk _ _ _ s _ _ _ => s

def ChartNode.onMap : ChartNode C → List (String × Option (List (TransitionDef C)))
  | ChartNode.mk _ _ _ _ o _ _ => o

def ChartNode.onEntry : ChartNode C → List (XAction C)
  | ChartNode.mk _ _ _ _ _ e _ => e

def ChartNode.onExit : ChartNode C → List (XAction C)
  | ChartNode.mk _ _ _ _ _ _ x => x

/-- Modelled from the spec: a machine is a parsed chart with a root node and an
initial context.  Following section 4.1, the parsed chart memoizes structural
information; here the field depth records an upper bound on the height of the
tree, used to bound the recursive descents over the chart. -/
structure Machine (C : Type) where
  root : ChartNode C
  context : C
  depth : Nat

/-- Absolute path of a node, as the list of keys from the root. -/
abbrev NPath := List String

def catLists (l : List (List α)) : List α := l.foldr (fun a b => a ++ b) []

def fMap (l : List α) (f : α → List β) : List β := catLists (l.map f)

/-- Removes duplicates keeping the first occurrence of each element. -/
def dedupGo [BEq α] (seen : List α) : List α → List α
  | [] => []
  | x :: xs => if seen.contains x then dedupGo seen xs else x :: dedupGo (x :: seen) xs

def dedupKF [BEq α] (l : List α) : List α := dedupGo [] l

def ChartNode.childByKey (n : ChartNode C) (k : String) : Option (ChartNode C) :=
  n.states.find? (fun c => c.key == k)

/-- Resolver lookup of the node at an absolute path. -/
def getNode : ChartNode C → NPath → Option (ChartNode C)
  | n, [] => some n
  | n, k :: rest =>
    match n.childByKey k with
    | some c => getNode c rest
    | none => none

/-- Modelled from the spec, section 4.3 step 5: the default leaf configuration
below a node, resolving the initial key of compound nodes and all regions of
parallel nodes.  The fuel argument bounds the descent depth; passing the size of
the node makes the function total while never running out on a finite chart. -/
def initialLeavesAux : Nat → ChartNode C → NPath → List NPath
  | 0, _, p => [p]
  | Nat.succ fuel, n, p =>
    match n.ntype with
    | NodeType.compound =>
      match n.childByKey n.initialKey with
      | some c => initialLeavesAux fuel c (p ++ [c.key])
      | none => [p]
    | NodeType.parallel =>
      fMap n.states (fun r => initialLeavesAux fuel r (p ++ [r.key]))
    | _ => [p]

def initialLeaves (fuel : Nat) (n : ChartNode C) : List NPath :=
  initialLeavesAux fuel n []

/-- Modelled from the spec, sections 3 and 4.1: resolves a StateValue against the
chart into the set of active atomic leaves, completing missing parts with default
descendants.  A string names the active child of a compound node; a map entry
names the value of a child or region. -/
def valueToLeavesAux : Nat → ChartNode C → NPath → StateValue → List NPath
  | 0, _, p, _ => [p]
  | Nat.succ fuel, n, p, v =>
    match n.ntype with
    | NodeType.compound =>
      match v with
      | StateValue.leaf k =>
        match n.childByKey k with
        | some c => valueToLeavesAux fuel c (p ++ [k]) (StateValue.node [])
        | none => initialLeavesAux (Nat.succ fuel) n p
      | StateValue.node entries =>
        match n.states.find? (fun c => entries.any (fun e => e.fst == c.key)) with
        | some c =>
          match entries.find? (fun e => e.fst == c.key) with
          | some e => valueToLeavesAux fuel c (p ++ [c.key]) e.snd
          | none => initialLeavesAux (Nat.succ fuel) n p
        | none => initialLeavesAux (Nat.succ fuel) n p
    | NodeType.parallel =>
      match v with
      | StateValue.node entries =>
        fMap n.states (fun r =>
          match entries.find? (fun e => e.fst == r.key) with
          | some e => valueToLeavesAux fuel r (p ++ [r.key]) e.snd
          | none => initialLeavesAux fuel r (p ++ [r.key]))
      | StateValue.leaf _ => initialLeavesAux (Nat.succ fuel) n p
    | _ => [p]

def valueToLeaves (fuel : Nat) (n : ChartNode C) (v : StateValue) : List NPath :=
  valueToLeavesAux fuel n [] v

def isEmptyNode : StateValue → Bool
  | StateValue.node [] => true
  | _ => false

/-- Leaves that pass through the child named k, with that first key stripped. -/
def subLeavesFor (k : String) (leaves : List NPath) : List NPath :=
  leaves.filterMap (fun l =>
    match l with
    | [] => none
    | k2 :: rest => if k2 == k then some rest else none)

/-- Modelled from the spec, section 4.2: rebuilds the StateValue of a leaf
configuration.  A compound node whose active child is itself childless is written
as the bare child name; a parallel node maps every region in document order; an
atomic region is written as an empty map. -/
def valueFromLeavesAux : Nat → ChartNode C → List NPath → StateValue
  | 0, _, _ => StateValue.node []
  | Nat.succ fuel, n, leaves =>
    match n.ntype with
    | NodeType.compound =>
      match n.states.find? (fun c => leaves.any (fun l => l.head? == some c.key)) with
      | some c =>
        let sub := valueFromLeavesAux fuel c (subLeavesFor c.key leaves)
        if isEmptyNode sub then StateValue.leaf c.key
        else StateValue.node [(c.key, sub)]
      | none => StateValue.node []
    | NodeType.parallel =>
      StateValue.node (n.states.map (fun r =>
        (r.key, valueFromLeavesAux fuel r (subLeavesFor r.key leaves))))
    | _ => StateValue.node []

def valueFromLeaves (fuel : Nat) (n : ChartNode C) (leaves : List NPath) : StateValue :=
  valueFromLeavesAux fuel n leaves

def wildcardKey : String := "*"

def emptyKey : String := ""

/-- Modelled from the spec, section 4.3 step 9: the event descriptors a single
node offers, excluding the eventless and wildcard descriptors, forbidden events
(bound to none) and events whose only transitions are targetless and actionless. -/
def ownEvents (n : ChartNode C) : List String :=
  n.onMap.filterMap (fun e =>
    match e.snd with
    | none => none
    | some ts =>
      if e.fst == emptyKey || e.fst == wildcardKey then none
      else if ts.any (fun t => !t.target.isEmpty || !t.actions.isEmpty) then some e.fst
      else none)

def maxLenOf (ls : List NPath) : Nat := ls.foldl (fun a l => max a l.length) 0

def sortByDepthDesc (ps : List NPath) : List NPath :=
  fMap (List.range (maxLenOf ps + 1)).reverse (fun d =>
    ps.filter (fun p => p.length == d))

def sortByDepthAsc (ps : List NPath) : List NPath :=
  fMap (List.range (maxLenOf ps + 1)) (fun d =>
    ps.filter (fun p => p.length == d))

/-- All active nodes of a leaf configuration: every leaf together with all of its
ancestors, the root included. -/
def prefClosure (leaves : List NPath) : List NPath :=
  dedupKF (fMap leaves (fun l => (List.range (l.length + 1)).map (fun i => l.take i)))

/-- Active nodes ordered deepest first, document order within one depth. -/
def configByDepthDesc (leaves : List NPath) : List NPath :=
  dedupKF (sortByDepthDesc (prefClosure leaves))

/-- Modelled from the spec, section 4.3 step 9: nextEvents is the union of the
event descriptors offered by the states of the configuration, collected from the
leaves upward. -/
def nextEventsOf (root : ChartNode C) (leaves : List NPath) : List String :=
  dedupKF (fMap (configByDepthDesc leaves) (fun p =>
    match getNode root p with
    | some n => ownEvents n
    | none => []))

/-- A transition selected for one atomic leaf: its source node, the resolved
internal flag, the resolved absolute target paths, its action list and its
position among the candidates of the source (used to merge selections made by
several leaves of the same source). -/
structure Selected (C : Type) where
  source : NPath
  internalFlag : Bool
  targets : List NPath
  actions : List (XAction C)
  index : Nat

def dotStr : String := "."

def startsWithDot (s : String) : Bool :=
  match s.data with
  | [] => false
  | c :: _ => c == '.'

def dropFirstChar (s : String) : String :=
  String.mk (s.data.drop 1)

/-- Modelled from the spec, section 4.1: resolves a target selector owned by a
source node.  A bare dot is the source itself, a selector with a leading dot is a
descendant of the source, anything else is resolved within the parent of the
source.  (Only single-segment selectors occur in the embedded charts.) -/
def resolveTargetSel (source : NPath) (sel : String) : NPath :=
  if sel == dotStr then source
  else if startsWithDot sel then source ++ [dropFirstChar sel]
  else source.dropLast ++ [sel]

/-- Modelled from the spec, section 3: the internal flag defaults to true iff the
target is omitted or every target selector stays inside the source subtree (a
leading-dot selector). -/
def defaultInternal (t : TransitionDef C) : Bool :=
  t.target.isEmpty || t.target.all (fun s => startsWithDot s)

def resolvedInternal (t : TransitionDef C) : Bool :=
  match t.internal with
  | some b => b
  | none => defaultInternal t

/-- The on-map entry of a node for an event descriptor: none when the node does
not mention the event, some none when the event is forbidden. -/
def lookupOn (n : ChartNode C) (etype : String) : Option (Option (List (TransitionDef C))) :=
  (n.onMap.find? (fun e => e.fst == etype)).map (fun e => e.snd)

/-- Outcome of trying to select a transition at one node: the node does not
mention the event, the node forbids it, or a guarded candidate was found. -/
inductive SelResult (C : Type) where
  | noEntry
  | blocked
  | found (s : Selected C)

/-- First candidate whose guard passes, together with its index. -/
def pickGuarded (ctx : C) (ed : EventData) : Nat → List (TransitionDef C) → Option (Nat × TransitionDef C)
  | _, [] => none
  | i, t :: ts => if t.cond ctx ed then some (i, t) else pickGuarded ctx ed (i + 1) ts

/-- Modelled from the spec, section 4.3 step 2: selection at a single node.  An
event bound to none (a forbidden event) blocks the walk; a missing entry or an
entry whose guards all fail lets the walk continue toward the root. -/
def selectAtNode (n : ChartNode C) (path : NPath) (ctx : C) (ed : EventData) : SelResult C :=
  match lookupOn n ed.type with
  | none => SelResult.noEntry
  | some none => SelResult.blocked
  | some (some ts) =>
    match pickGuarded ctx ed 0 ts with
    | none => SelResult.noEntry
    | some it =>
      SelResult.found
        { source := path
          internalFlag := resolvedInternal it.snd
          targets := it.snd.target.map (fun s => resolveTargetSel path s)
          actions := it.snd.actions
          index := it.fst }

/-- The leaf and all of its ancestors, deepest first. -/
def ancestorsDesc (leaf : NPath) : List NPath :=
  (List.range (leaf.length + 1)).reverse.map (fun i => leaf.take i)

def selectForLeafGo (root : ChartNode C) (ctx : C) (ed : EventData) : List NPath → Option (Selected C)
  | [] => none
  | p :: ps =>
    match getNode root p with
    | none => selectForLeafGo root ctx ed ps
    | some n =>
      match selectAtNode n p ctx ed with
      | SelResult.found s => some s
      | SelResult.blocked => none
      | SelResult.noEntry => selectForLeafGo root ctx ed ps

/-- Modelled from the spec, section 4.3 step 2: starting from an atomic leaf of
the configuration, walk up to the root and take the first transition whose event
descriptor matches and whose guard passes. -/
def selectForLeaf (root : ChartNode C) (ctx : C) (ed : EventData) (leaf : NPath) : Option (Selected C) :=
  selectForLeafGo root ctx ed (ancestorsDesc leaf)

/-- Merges selections made by different leaves that bubbled up to the very same
transition of a shared ancestor. -/
def dedupSelGo : List (NPath × Nat) → List (Selected C) → List (Selected C)
  | _, [] => []
  | seen, s :: ss =>
    if seen.contains (s.source, s.index) then dedupSelGo seen ss
    else s :: dedupSelGo ((s.source, s.index) :: seen) ss

/-- Modelled from the spec, section 4.3 step 3: a transition with no target and no
actions is discarded. -/
def dropNoops (sels : List (Selected C)) : List (Selected C) :=
  sels.filter (fun s => !(s.targets.isEmpty && s.actions.isEmpty))

def sharedStem2 : NPath → NPath → NPath
  | [], _ => []
  | _, [] => []
  | a :: xs, b :: ys => if a == b then a :: sharedStem2 xs ys else []

def sharedStem : List NPath → NPath
  | [] => []
  | p :: ps => ps.foldl sharedStem2 p

def isStrictPref (a b : NPath) : Bool := a.isPrefixOf b && !(a == b)

def nodeIsCompound (root : ChartNode C) (p : NPath) : Bool :=
  match getNode root p with
  | some n => n.ntype == NodeType.compound
  | none => false

def lccaGo (root : ChartNode C) (paths : List NPath) : List NPath → NPath
  | [] => []
  | c :: cs =>
    if paths.all (fun p => isStrictPref c p) && nodeIsCompound root c then c
    else lccaGo root paths cs

/-- Modelled from the spec, section 4.1: the least common compound ancestor - the
lowest compound (non-parallel) node that properly contains every input path. -/
def lcca (root : ChartNode C) (paths : List NPath) : NPath :=
  let cp := sharedStem paths
  lccaGo root paths ((List.range (cp.length + 1)).reverse.map (fun i => cp.take i))

/-- Modelled from the spec, section 4.3 step 4: the exit scope of a selected
transition.  An internal transition whose targets all stay inside the source
subtree is scoped at its source; any other transition is scoped at the least
common compound ancestor of its source and targets.  The boolean records which
case applied. -/
def scopeOf (root : ChartNode C) (s : Selected C) : NPath × Bool :=
  if s.internalFlag && s.targets.all (fun t => s.source.isPrefixOf t) then (s.source, true)
  else (lcca root (s.source :: s.targets), false)

/-- For an internal transition a target equal to the source itself is not
re-entered: a self target or a bare dot yields no exit and no entry. -/
def effTargets (s : Selected C) (internalStyle : Bool) : List NPath :=
  if internalStyle then s.targets.filter (fun t => !(t == s.source)) else s.targets

/-- Active nodes of the configuration strictly below a base path, deepest first:
the exit set of a transition scoped at that base. -/
def activeStrictlyBelow (leaves : List NPath) (base : NPath) : List NPath :=
  (configByDepthDesc leaves).filter (fun p => isStrictPref base p)

def disjointP (a b : List NPath) : Bool := a.all (fun p => !(b.contains p))

/-- Selected transitions ordered by source depth, deepest first, document order
preserved within one depth. -/
def selByDepthDesc (sels : List (Selected C)) : List (Selected C) :=
  fMap (List.range (maxLenOf (sels.map (fun s => s.source)) + 1)).reverse (fun d =>
    sels.filter (fun s => s.source.length == d))

/-- Modelled from the spec, section 4.3 step 3: conflict resolution.  Walking the
selected transitions deepest source first, a transition is kept only when its
exit set is disjoint from the exit sets already taken. -/
def conflictFilter (root : ChartNode C) (leaves : List NPath) :
    List (Selected C) → List NPath → List (Selected C)
  | [], _ => []
  | s :: ss, takenEx =>
    let sb := scopeOf root s
    let ts := effTargets s sb.snd
    let ex := if ts.isEmpty then [] else activeStrictlyBelow leaves sb.fst
    if disjointP ex takenEx then s :: conflictFilter root leaves ss (takenEx ++ ex)
    else conflictFilter root leaves ss (takenEx ++ ex)

/-- Nodes entered on the way from the base (exclusive) down to a new leaf,
shallowest first. -/
def enterChain (base : NPath) (t : NPath) : List NPath :=
  (List.range (t.length + 1)).filterMap (fun i =>
    if base.length < i then some (t.take i) else none)

/-- Accumulator of the configuration surgery: the evolving leaf set and the
exited and entered node sets collected for action ordering. -/
structure StepAcc (C : Type) where
  leaves : List NPath
  exited : List NPath
  entered : List NPath

/-- Modelled from the spec, section 4.3 steps 4 and 5: applies one selected
transition to the configuration.  Internal transitions with no effective target
touch nothing; otherwise every active node strictly below the scope is exited and
each target is entered together with its ancestors below the scope and its
default descendants. -/
def applySel (fuel : Nat) (root : ChartNode C) (acc : StepAcc C) (s : Selected C) : StepAcc C :=
  let sb := scopeOf root s
  let ts := effTargets s sb.snd
  if ts.isEmpty then acc
  else
    let base := sb.fst
    let ex := activeStrictlyBelow acc.leaves base
    let newSub := fMap ts (fun t =>
      match getNode root t with
      | some n => initialLeavesAux fuel n t
      | none => [t])
    { leaves := acc.leaves.filter (fun l => !(base.isPrefixOf l)) ++ newSub
      exited := acc.exited ++ ex
      entered := acc.entered ++ fMap newSub (fun l => enterChain base l) }

/-- Accumulator of the action fold of section 4.3 step 7: assigns are folded into
the context in order, opaque actions are kept for the evaluator, and it is
recorded whether any assign was applied. -/
structure ActFold (C : Type) where
  ctx : C
  outActs : List String
  assigned : Bool

def foldActs (ed : EventData) (start : ActFold C) (acts : List (XAction C)) : ActFold C :=
  acts.foldl (fun a x =>
    match x with
    | XAction.assignA f => { a with ctx := f a.ctx ed, assigned := true }
    | XAction.actA nm => { a with outActs := a.outActs ++ [nm] }) start

def onEntryAt (root : ChartNode C) (p : NPath) : List (XAction C) :=
  match getNode root p with
  | some n => n.onEntry
  | none => []

def onExitAt (root : ChartNode C) (p : NPath) : List (XAction C) :=
  match getNode root p with
  | some n => n.onExit
  | none => []

/-- Modelled from the spec, sections 3 and 6: the State record produced by the
transition engine.  The field named event in the source is the plain event, the
field written with a leading underscore in the source is the SCXML envelope. -/
structure XState (C : Type) where
  value : StateValue
  context : C
  event : EventData
  scxmlEvent : SCXMLEvent
  actions : List String
  changed : Option Bool
  nextEvents : List String

/-- Modelled from the spec, section 4.3: the pure transition engine.  Given the
chart, a state value, a context and a normalized event it selects transitions per
leaf, merges and filters them, computes the exit and entry sets, orders the
actions (exit actions deepest first, then transition actions, then entry actions
shallowest first), folds assigns over the context and computes the changed flag
and nextEvents. -/
def transitionValue (m : Machine C) (v : StateValue) (ctx : C) (sc : SCXMLEvent) : XState C :=
  let root := m.root
  let fuel := m.depth
  let ed := sc.data
  let leavesOld := valueToLeavesAux fuel root [] v
  let sels0 := leavesOld.filterMap (fun l => selectForLeaf root ctx ed l)
  let sels1 := dedupSelGo [] sels0
  let sels2 := dropNoops sels1
  let sels3 := conflictFilter root leavesOld (selByDepthDesc sels2) []
  let step := sels3.foldl (fun a s => applySel fuel root a s)
    { leaves := leavesOld, exited := [], entered := [] }
  let exitedNodes := dedupKF (sortByDepthDesc step.exited)
  let enteredNodes := dedupKF (sortByDepthAsc step.entered)
  let ordered := fMap exitedNodes (fun p => onExitAt root p)
    ++ fMap sels3 (fun s => s.actions)
    ++ fMap enteredNodes (fun p => onEntryAt root p)
  let folded := foldActs ed { ctx := ctx, outActs := [], assigned := false } ordered
  let vNew := valueFromLeavesAux fuel root step.leaves
  let leavesNew := valueToLeavesAux fuel root [] vNew
  let chgd : Bool := (!(leavesOld == leavesNew)) || (!folded.outActs.isEmpty) || folded.assigned
  { value := vNew
    context := folded.ctx
    event := ed
    scxmlEvent := sc
    actions := folded.outActs
    changed := some chgd
    nextEvents := nextEventsOf root leavesNew }

/-- Modelled from the spec, section 4.5: the initial State, produced by entering
the root with the synthetic initial event; its changed field is undefined. -/
def Machine.initialState (m : Machine C) : XState C :=
  let root := m.root
  let leaves := initialLeaves m.depth root
  let entered := dedupKF (sortByDepthAsc (prefClosure leaves))
  let ordered := fMap entered (fun p => onEntryAt root p)
  let folded := foldActs initEvent { ctx := m.context, outActs := [], assigned := false } ordered
  { value := valueFromLeaves m.depth root leaves
    context := folded.ctx
    event := initEvent
    scxmlEvent := toSCXMLEvent initEvent none
    actions := folded.outActs
    changed := none
    nextEvents := nextEventsOf root leaves }

/-- Modelled from the spec, section 4.3: transition from a full State; only the
value and the context of the previous state are consulted. -/
def Machine.transition (m : Machine C) (s : XState C) (e : MEvent) : XState C :=
  transitionValue m s.value s.context (normalizeEvent e.toXEvent)

/-- Modelled from the spec: the first argument of transition may also be a bare
StateValue or an atomic state name, resolved against the chart with default
descendants and the machine context. -/
inductive StateLike (C : Type) where
  | st (s : XState C)
  | val (v : StateValue)
  | nm (k : String)

def Machine.transitionFrom (m : Machine C) (sl : StateLike C) (e : MEvent) : XState C :=
  match sl with
  | StateLike.st s => m.transition s e
  | StateLike.val v => transitionValue m v m.context (normalizeEvent e.toXEvent)
  | StateLike.nm k => transitionValue m (StateValue.leaf k) m.context (normalizeEvent e.toXEvent)

/-- Modelled from the spec, section 6: State.from fabricates an inert State
carrying only a value and a context (from is a reserved word here, hence the
name). -/
def stateFrom (v : StateValue) (ctx : C) : XState C :=
  { value := v
    context := ctx
    event := initEvent
    scxmlEvent := toSCXMLEvent initEvent none
    actions := []
    changed := none
    nextEvents := [] }

/-- Modelled from the spec, section 6: State.inert returns a State with an empty
action list, preserving identity when the input already has none; the optional
context replaces the context only when a new State must be built. -/
def stateInert (s : XState C) (ctx2 : Option C) : XState C :=
  match s.actions with
  | [] => s
  | _ => { s with actions := [], context := ctx2.getD s.context }

/-- Modelled from the spec, section 6: State.inert applied to a bare StateValue
and a context fabricates an inert State from them. -/
def stateInertValue (v : StateValue) (ctx : C) : XState C :=
  stateFrom v ctx

/-- Modelled from the spec, section 6: the JSON serialization of a State keeps
its data fields (value, context, event, envelope, actions); methods and derived
caches are dropped. -/
structure StateJSON (C : Type) where
  value : StateValue
  context : C
  event : EventData
  scxmlEvent : SCXMLEvent
  actions : List String

def stateToJSON (s : XState C) : StateJSON C :=
  { value := s.value
    context := s.context
    event := s.event
    scxmlEvent := s.scxmlEvent
    actions := s.actions }

/-- Modelled from the spec, section 6: State.create rehydrates a State from its
JSON form, producing a state usable as the from argument of transition. -/
def stateCreate (j : StateJSON C) : XState C :=
  { value := j.value
    context := j.context
    event := j.event
    scxmlEvent := j.scxmlEvent
    actions := j.actions
    changed := none
    nextEvents := [] }

/-- Modelled from the spec, section 4.6: the sources an actor can be spawned
from. -/
inductive SpawnSource where
  | machineSrc (id : String)
  | promiseSrc (id : String)
  | callbackSrc (id : String)
  | observableSrc (id : String)
deriving Repr, DecidableEq

/-- Modelled from the spec, sections 3 and 4.6: an actor reference.  Its send
function returns the list of events actually delivered, so a no-op send is the
function returning the empty list; the underlying source is held for later
activation. -/
structure Actor where
  id : String
  src : SpawnSource
  send : EventData → List EventData
  live : Bool

/-- Modelled from the spec, section 4.6: the null actor returned when spawning
outside of a live interpreter; its send is a callable no-op and it holds the
underlying source. -/
def nullActor (s : SpawnSource) : Actor :=
  { id := "null", src := s, send := fun _ => [], live := false }

/-- Modelled from the spec, section 4.6: spawn produces a live actor inside a
running interpreter and a null actor otherwise. -/
def spawnActor (s : SpawnSource) (inLiveService : Bool) : Actor :=
  if inLiveService then
    { id := "live", src := s, send := fun e => [e], live := true }
  else nullActor s

/-- The main test machine of src/test/state.test.ts (lines 6 to 82): states one,
two with nested deep.foo and deep.bar, parallel three with regions first and
second, a machine-level MACHINE_EVENT transition and two forbidden
FORBIDDEN_EVENT bindings. -/
def mainMachine : Machine Unit :=
  { root := ChartNode.mk ("") NodeType.compound ("one")
      [ ChartNode.mk ("one") NodeType.atomic ("") []
          [ ("EXTERNAL", some [{ target := ["one"], internal := some false }]),
            ("INERT", some [{ target := ["one"], internal := some true }]),
            ("INTERNAL", some [{ target := ["one"], internal := some true,
                                 actions := [XAction.actA ("doSomething")] }]),
            ("TO_TWO", some [{ target := ["two"] }]),
            ("TO_THREE", some [{ target := ["three"] }]),
            ("FORBIDDEN_EVENT", none) ]
          [XAction.actA ("enter")] [],
        ChartNode.mk ("two") NodeType.compound ("deep")
          [ ChartNode.mk ("deep") NodeType.compound ("foo")
              [ ChartNode.mk ("foo") NodeType.atomic ("") []
                  [ ("FOO_EVENT", some [{ target := ["bar"] }]),
                    ("FORBIDDEN_EVENT", none) ] [] [],
                ChartNode.mk ("bar") NodeType.atomic ("") []
                  [ ("BAR_EVENT", some [{ target := ["foo"] }]) ] [] [] ]
              [] [] [] ]
          [ ("DEEP_EVENT", some [{ target := ["."] }]) ] [] [],
        ChartNode.mk ("three") NodeType.parallel ("")
          [ ChartNode.mk ("first") NodeType.compound ("p31")
              [ ChartNode.mk ("p31") NodeType.atomic ("") []
                  [ ("P31", some [{ target := ["."] }]) ] [] [] ] [] [] [],
            ChartNode.mk ("second") NodeType.compound ("p32")
              [ ChartNode.mk ("p32") NodeType.atomic ("") []
                  [ ("P32", some [{ target := ["."] }]) ] [] [] ] [] [] [] ]
          [ ("THREE_EVENT", some [{ target := ["."] }]) ] [] [] ]
      [ ("MACHINE_EVENT", some [{ target := [".two"] }]) ] [] []
    context := ()
    depth := 8 }

/-- The final-state machine of src/test/state.test.ts (lines 130 to 144). -/
def finalMachine : Machine Unit :=
  { root := ChartNode.mk ("") NodeType.compound ("one")
      [ ChartNode.mk ("one") NodeType.atomic ("") []
          [ ("DONE", some [{ target := ["two"] }]) ] [] [],
        ChartNode.mk ("two") NodeType.final ("") [] [] [] [] ]
      [] [] []
    context := ()
    depth := 8 }

/-- The assign machine of src/test/state.test.ts (lines 152 to 167): a single
state with a targetless EVENT transition whose only action is an assign that
increments the count held in the context. -/
def assignMachine : Machine Nat :=
  { root := ChartNode.mk ("") NodeType.compound ("same")
      [ ChartNode.mk ("same") NodeType.atomic ("") []
          [ ("EVENT", some [{ actions := [XAction.assignA (fun c _ => c + 1)] }]) ]
          [] [] ]
      [] [] []
    context := 0
    depth := 8 }

def valueKey : String := "value"

/-- The parallel toggle machine of src/test/state.test.ts (lines 176 to 206): an
edit region with a targetless CHANGE transition assigning the event value into
the context, and a validity region with guarded CHANGE transitions targeting its
valid and invalid children. -/
def toggleMachine : Machine String :=
  { root := ChartNode.mk ("") NodeType.parallel ("")
      [ ChartNode.mk ("edit") NodeType.atomic ("") []
          [ ("CHANGE", some [{ actions :=
              [XAction.assignA (fun c e => (e.payload.lookup valueKey).getD c)] }]) ]
          [] [],
        ChartNode.mk ("validity") NodeType.compound ("invalid")
          [ ChartNode.mk ("invalid") NodeType.atomic ("") [] [] [] [],
            ChartNode.mk ("valid") NodeType.atomic ("") [] [] [] [] ]
          [ ("CHANGE", some [ { target := [".valid"], cond := fun _ _ => true },
                              { target := [".invalid"] } ]) ] [] [] ]
      [] [] []
    context := ""
    depth := 8 }

/-- The null-actor machine of src/test/state.test.ts (lines 770 to 787): its
context holds an actor reference filled by an entry assign that spawns a promise
while no interpreter is running. -/
def nullActorMachine : Machine (Option Actor) :=
  { root := ChartNode.mk ("") NodeType.compound ("foo")
      [ ChartNode.mk ("foo") NodeType.atomic ("") [] []
          [XAction.assignA
            (fun _ _ => some (spawnActor (SpawnSource.promiseSrc ("promise42")) false))] [] ]
      [] [] []
    context := none
    depth := 8 }

def toTwoEv : MEvent := MEvent.str ("TO_TWO")

def toThreeEv : MEvent := MEvent.str ("TO_THREE")

def externalEv : MEvent := MEvent.str ("EXTERNAL")

def inertEv : MEvent := MEvent.str ("INERT")

def internalEv : MEvent := MEvent.str ("INTERNAL")

def assignEv : MEvent := MEvent.str ("EVENT")

def doneEv : MEvent := MEvent.str ("DONE")

def forbiddenEv : MEvent := MEvent.str ("FORBIDDEN_EVENT")

def unknownEv : MEvent := MEvent.str ("UNKNOWN_EVENT")

def forbiddenEd : EventData := { type := "FORBIDDEN_EVENT" }

def toTwoFooBar : EventData := { type := "TO_TWO", payload := [("foo", "bar")] }

def toTwoObjEv : MEvent := MEvent.obj { data := toTwoFooBar }

def scxmlMetaEv : MEvent :=
  MEvent.obj { data := toTwoFooBar, scxml := some (toSCXMLEvent toTwoFooBar (some ("test"))) }

def changeEv : MEvent :=
  MEvent.obj { data := { type := "CHANGE", payload := [("value", "whatever")] } }

def twoDeepFooV : StateValue :=
  StateValue.node [("two", StateValue.node [("deep", StateValue.leaf ("foo"))])]

def threeV : StateValue :=
  StateValue.node [("three", StateValue.node [("first", StateValue.leaf ("p31")),
                                              ("second", StateValue.leaf ("p32"))])]

/-- Claim C1: in the two-region parallel toggle machine, the CHANGE event selects
a targetless transition in the edit region and an internal transition targeting
valid inside the validity region; the next value is edit mapped to the empty map
and validity mapped to valid, so the edit region is neither exited nor
re-entered while validity moves from invalid to valid. -/
theorem claim1_parallel_targetless_no_escape :
  toggleMachine.initialState.value
      = StateValue.node [("edit", StateValue.node []), ("validity", StateValue.leaf ("invalid"))]
  ∧ (toggleMachine.transition toggleMachine.initialState changeEv).value
      = StateValue.node [("edit", StateValue.node []), ("validity", StateValue.leaf ("valid"))]
  ∧ (toggleMachine.transition toggleMachine.initialState changeEv).changed = some true
  ∧ (toggleMachine.transition toggleMachine.initialState changeEv).context = "whatever" :=
  ⟨rfl, rfl, rfl, rfl⟩

/-- Claim C2: the changed field is undefined for the synthetic initial state of
every machine and defined for every state produced by transition; an internal
self-transition with no actions yields changed false, an external self-transition
re-firing onEntry yields changed true, an unknown event yields changed false, and
a targetless transition whose only action is an assign yields changed true while
the state value stays identical. -/
theorem claim2_changed_flag :
  (∀ (D : Type) (m : Machine D), (Machine.initialState m).changed = none)
  ∧ (∀ (D : Type) (m : Machine D) (s : XState D) (e : MEvent),
      (m.transition s e).changed.isSome = true)
  ∧ (mainMachine.transition (mainMachine.transition mainMachine.initialState externalEv) inertEv).changed
      = some false
  ∧ (mainMachine.transition (mainMachine.transition mainMachine.initialState externalEv) inertEv).value
      = StateValue.leaf ("one")
  ∧ (mainMachine.transition mainMachine.initialState externalEv).changed = some true
  ∧ (mainMachine.transition mainMachine.initialState externalEv).actions = ["enter"]
  ∧ (mainMachine.transition mainMachine.initialState internalEv).changed = some true
  ∧ (mainMachine.transition (mainMachine.transition mainMachine.initialState toTwoEv) unknownEv).changed
      = some false
  ∧ (assignMachine.transition assignMachine.initialState assignEv).changed = some true
  ∧ (assignMachine.transition assignMachine.initialState assignEv).value
      = assignMachine.initialState.value
  ∧ (assignMachine.transition assignMachine.initialState assignEv).context = 1 :=
  ⟨fun _ _ => rfl, fun _ _ _ _ => rfl, rfl, rfl, rfl, rfl, rfl, rfl, rfl, rfl, rfl⟩

/-- Claim C3: nextEvents of the configuration reached by TO_TWO is exactly
FOO_EVENT, DEEP_EVENT, MACHINE_EVENT and of the parallel configuration reached by
TO_THREE exactly P31, P32, THREE_EVENT, MACHINE_EVENT, the union of the
descriptors offered by the states of the configuration and its ancestors. -/
theorem claim3_next_events :
  (mainMachine.transition mainMachine.initialState toTwoEv).value = twoDeepFooV
  ∧ (mainMachine.transition mainMachine.initialState toTwoEv).nextEvents
      = ["FOO_EVENT", "DEEP_EVENT", "MACHINE_EVENT"]
  ∧ (mainMachine.transition mainMachine.initialState toThreeEv).value = threeV
  ∧ (mainMachine.transition mainMachine.initialState toThreeEv).nextEvents
      = ["P31", "P32", "THREE_EVENT", "MACHINE_EVENT"] :=
  ⟨rfl, rfl, rfl, rfl⟩

/-- Claim C4: rehydrating a State through its JSON round-trip with State.create
yields a state on which transition gives the same result as on the original, for
every machine, state and event; in particular the rehydrated initial state
transitioned on TO_TWO reaches the two.deep.foo configuration. -/
theorem claim4_create_roundtrip :
  (∀ (D : Type) (m : Machine D) (s : XState D) (e : MEvent),
      m.transition (stateCreate (stateToJSON s)) e = m.transition s e)
  ∧ (mainMachine.transition (stateCreate (stateToJSON mainMachine.initialState)) toTwoEv).value
      = twoDeepFooV :=
  ⟨fun _ _ _ _ => rfl, rfl⟩

/-- Claim C5: the event field of a transition result is the caller event with a
string shorthand wrapped into a record with only a type field, the envelope field
is the SCXML envelope of that event, a caller-supplied envelope (with its sendid
metadata) takes precedence, and the initial state carries the synthetic
xstate.init event and its envelope. -/
theorem claim5_event_normalization :
  (mainMachine.transition mainMachine.initialState toTwoEv).event = { type := "TO_TWO" }
  ∧ (mainMachine.transition mainMachine.initialState toTwoEv).scxmlEvent
      = toSCXMLEvent { type := "TO_TWO" } none
  ∧ (mainMachine.transition mainMachine.initialState toTwoObjEv).event = toTwoFooBar
  ∧ (mainMachine.transition mainMachine.initialState toTwoObjEv).scxmlEvent
      = toSCXMLEvent toTwoFooBar none
  ∧ (mainMachine.transition mainMachine.initialState scxmlMetaEv).scxmlEvent
      = toSCXMLEvent toTwoFooBar (some ("test"))
  ∧ mainMachine.initialState.event = initEvent
  ∧ mainMachine.initialState.scxmlEvent = toSCXMLEvent initEvent none
  ∧ (∀ (D : Type) (m : Machine D) (s : XState D) (k : String),
      (m.transition s (MEvent.str k)).event = { type := k, payload := [] })
  ∧ (∀ (D : Type) (m : Machine D) (s : XState D) (e : XEvent),
      (m.transition s (MEvent.obj e)).scxmlEvent = normalizeEvent e) :=
  ⟨rfl, rfl, rfl, rfl, rfl, rfl, rfl, fun _ _ _ _ => rfl, fun _ _ _ _ => rfl⟩

/-- Claim C6: State.inert always returns a state with an empty action list and is
the identity on a state that already has none; State.from fabricates an inert
state carrying exactly the given value and context; the inert form of the main
machine initial state (which carries the enter action) has no actions. -/
theorem claim6_inert_from :
  (∀ (D : Type) (s : XState D) (c2 : Option D), (stateInert s c2).actions = [])
  ∧ (∀ (D : Type) (s : XState D) (c2 : Option D), s.actions = [] → stateInert s c2 = s)
  ∧ (∀ (D : Type) (v : StateValue) (c : D),
      (stateFrom v c).value = v ∧ (stateFrom v c).context = c ∧ (stateFrom v c).actions = [])
  ∧ mainMachine.initialState.actions = ["enter"]
  ∧ (stateInert mainMachine.initialState none).actions = []
  ∧ (stateInertValue mainMachine.initialState.value (37 : Nat)).actions = []
  ∧ (stateInertValue mainMachine.initialState.value (37 : Nat)).context = 37 :=
  ⟨fun D s c2 => by cases h : s.actions with
    | nil => simp [stateInert, h]
    | cons a l => simp [stateInert, h],
   fun D s c2 h => by simp [stateInert, h],
   fun _ _ _ => ⟨rfl, rfl, rfl⟩, rfl, rfl, rfl, rfl⟩

/-- Claim C7: transition is deterministic and depends on no hidden state: two
applications at the same arguments are equal, and two previous states agreeing on
value and context (whatever their other fields) yield equal results. -/
theorem claim7_deterministic :
  (∀ (D : Type) (m : Machine D) (s : XState D) (e : MEvent),
      m.transition s e = m.transition s e)
  ∧ (∀ (D : Type) (m : Machine D) (s1 s2 : XState D) (e : MEvent),
      s1.value = s2.value → s1.context = s2.context →
      m.transition s1 e = m.transition s2 e) :=
  ⟨fun _ _ _ _ => rfl,
   fun D m s1 s2 e hv hc => by
    simp only [Machine.transition]
    rw [hv, hc]⟩

/-- Witness for claim C7 at a concrete input: the rehydrated initial state agrees
with the initial state on value and context, and transition on TO_TWO gives equal
results on both. -/
theorem claim7_deterministic_witness :
  mainMachine.initialState.value = (stateCreate (stateToJSON mainMachine.initialState)).value
  ∧ mainMachine.initialState.context = (stateCreate (stateToJSON mainMachine.initialState)).context
  ∧ mainMachine.transition mainMachine.initialState toTwoEv
      = mainMachine.transition (stateCreate (stateToJSON mainMachine.initialState)) toTwoEv :=
  ⟨rfl, rfl,
   claim7_deterministic.2 Unit mainMachine mainMachine.initialState
     (stateCreate (stateToJSON mainMachine.initialState)) toTwoEv rfl rfl⟩

/-- Witness for claim C6 at a concrete input: the fabricated state for the leaf
foo has no actions, so inert preserves it identically. -/
theorem claim6_inert_from_witness :
  (stateFrom (StateValue.leaf ("foo")) (0 : Nat)).actions = []
  ∧ stateInert (stateFrom (StateValue.leaf ("foo")) (0 : Nat)) none
      = stateFrom (StateValue.leaf ("foo")) (0 : Nat) :=
  ⟨rfl, claim6_inert_from.2.1 Nat (stateFrom (StateValue.leaf ("foo")) 0) none rfl⟩

/-- Claim C8: spawning outside of a live interpreter returns the null actor: the
entry assign of the null-actor machine runs while computing the initial state
with no service, the context then holds a defined actor whose send is a callable
no-op delivering nothing, and the null actor keeps its underlying source. -/
theorem claim8_null_actor_spawn :
  nullActorMachine.initialState.context = some (nullActor (SpawnSource.promiseSrc ("promise42")))
  ∧ (nullActorMachine.initialState.context.map (fun a => a.send { type := "PING" })) = some []
  ∧ (∀ (s : SpawnSource), spawnActor s false = nullActor s)
  ∧ (∀ (s : SpawnSource) (ed : EventData), (nullActor s).send ed = [])
  ∧ (∀ (s : SpawnSource), (nullActor s).src = s) :=
  ⟨rfl, rfl, fun _ => rfl, fun _ _ => rfl, fun _ => rfl⟩

/-- Claim C9: transition accepts a bare StateValue or an atomic state name in
place of a State, resolves it against the chart with default descendants and the
machine context, and produces the same result as from the corresponding State:
from the value of the TO_THREE state on TO_THREE the parallel configuration and
its nextEvents are reproduced, and from the name one the TO_TWO and DONE
transitions behave as from the resolved state. -/
theorem claim9_transition_from_value :
  (mainMachine.transitionFrom
      (StateLike.val (mainMachine.transition mainMachine.initialState toThreeEv).value) toThreeEv).value
      = threeV
  ∧ (mainMachine.transitionFrom
      (StateLike.val (mainMachine.transition mainMachine.initialState toThreeEv).value) toThreeEv).nextEvents
      = ["P31", "P32", "THREE_EVENT", "MACHINE_EVENT"]
  ∧ mainMachine.transitionFrom
      (StateLike.val (mainMachine.transition mainMachine.initialState toThreeEv).value) toThreeEv
      = mainMachine.transition (mainMachine.transition mainMachine.initialState toThreeEv) toThreeEv
  ∧ (mainMachine.transitionFrom (StateLike.nm ("one")) toTwoEv).value = twoDeepFooV
  ∧ mainMachine.transitionFrom (StateLike.nm ("one")) toTwoEv
      = mainMachine.transition (stateFrom (StateValue.leaf ("one")) ()) toTwoEv
  ∧ (finalMachine.transitionFrom (StateLike.nm ("one")) doneEv).value = StateValue.leaf ("two")
  ∧ (finalMachine.transitionFrom (StateLike.nm ("one")) doneEv).changed = some true :=
  ⟨rfl, rfl, rfl, rfl, rfl, rfl, rfl⟩

/-- Claim C10: an on-map entry binding an event to none (undefined in the DSL)
forbids the event: transition on FORBIDDEN_EVENT leaves the value, context and
configuration of both forbidding states unchanged with changed false, the event
is absent from nextEvents, and in general selection at any node whose on-map
binds the event type to none is blocked. -/
theorem claim10_forbidden_event :
  (mainMachine.transition mainMachine.initialState forbiddenEv).value = StateValue.leaf ("one")
  ∧ (mainMachine.transition mainMachine.initialState forbiddenEv).changed = some false
  ∧ (mainMachine.transition mainMachine.initialState forbiddenEv).context
      = mainMachine.initialState.context
  ∧ (mainMachine.transition (mainMachine.transition mainMachine.initialState toTwoEv) forbiddenEv).value
      = twoDeepFooV
  ∧ (mainMachine.transition (mainMachine.transition mainMachine.initialState toTwoEv) forbiddenEv).changed
      = some false
  ∧ mainMachine.initialState.nextEvents
      = ["EXTERNAL", "INERT", "INTERNAL", "TO_TWO", "TO_THREE", "MACHINE_EVENT"]
  ∧ (mainMachine.initialState.nextEvents.contains ("FORBIDDEN_EVENT")) = false
  ∧ (∀ (D : Type) (n : ChartNode D) (p : NPath) (ctx : D) (ed : EventData),
      lookupOn n ed.type = some none → selectAtNode n p ctx ed = SelResult.blocked) :=
  ⟨rfl, rfl, rfl, rfl, rfl, rfl, rfl,
   fun D n p ctx ed h => by unfold selectAtNode; rw [h]⟩

/-- Witness for claim C10 at a concrete input: the foo node of the main machine
binds FORBIDDEN_EVENT to none, and selection there is blocked. -/
theorem claim10_forbidden_event_witness :
  lookupOn ((getNode mainMachine.root ["two", "deep", "foo"]).getD mainMachine.root) forbiddenEd.type
      = some none
  ∧ selectAtNode ((getNode mainMachine.root ["two", "deep", "foo"]).getD mainMachine.root)
      ["two", "deep", "foo"] () forbiddenEd = SelResult.blocked :=
  ⟨rfl,
   claim10_forbidden_event.2.2.2.2.2.2.2 Unit
     ((getNode mainMachine.root ["two", "deep", "foo"]).getD mainMachine.root)
     ["two", "deep", "foo"] () forbiddenEd rfl⟩
